import Mathlib

/-!
Shallow embedding of the DeepSeek VS Code chat extension
(`src/extension.ts`, plus the earlier variant of the provider kept as an
unnamed source file).  Pure logic (code-block extraction, file naming,
extension lookup, response handling, the per-turn session step) is
translated into executable Lean definitions; host effects (Date.now, the
file system, the HTTPS transport, configuration reads) are passed in as
explicit parameters or oracles.
-/

namespace DeepseekChat

/-! ## JS character classes and small helpers -/

/-- JS regex `\w` character class: `[A-Za-z0-9_]`. -/
def jsWordChar (c : Char) : Bool :=
  c.isAlphanum || c = '_'

/-- JS regex `\s` character class (the members that can occur in chat
text: ASCII whitespace plus NBSP, BOM and the two Unicode line
separators). -/
def jsWhitespace (c : Char) : Bool :=
  c = ' ' || c = '\t' || c = '\n' || c = '\r' ||
  c = Char.ofNat 11 || c = Char.ofNat 12 || c = Char.ofNat 0xa0 ||
  c = Char.ofNat 0x2028 || c = Char.ofNat 0x2029 || c = Char.ofNat 0xfeff

/-- Characters matched by JS `.` without the `s` flag: anything except a
line terminator. -/
def jsDotChar (c : Char) : Bool :=
  !(c = '\n' || c = '\r' || c = Char.ofNat 0x2028 || c = Char.ofNat 0x2029)

/-- Character of `cs` at index `i`, with NUL standing for "out of
bounds" (NUL never occurs in the texts we model and matches no regex
literal used by the source). -/
def charAt (cs : List Char) (i : Nat) : Char :=
  cs.getD i '\x00'

/-- First index `j` with `s ≤ j < s + c` satisfying `p`, scanning
upward — the generic "leftmost match" search used by the regex
embeddings. -/
def findFirst (p : Nat → Bool) : Nat → Nat → Option Nat
  | _, 0 => none
  | s, c + 1 => if p s then some s else findFirst p (s + 1) c

theorem findFirst_eq_some {p : Nat → Bool} {s c m : Nat}
    (h : findFirst p s c = some m) :
    p m = true ∧ s ≤ m ∧ m < s + c ∧ ∀ j, s ≤ j → j < m → p j = false := by
  induction c generalizing s with
  | zero => simp [findFirst] at h
  | succ c ih =>
    rw [findFirst] at h
    by_cases hp : p s = true
    · simp [hp] at h
      subst h
      exact ⟨hp, Nat.le_refl _, by omega, fun j h1 h2 => absurd h1 (by omega)⟩
    · simp [hp] at h
      obtain ⟨hm, hs, hc, hmin⟩ := ih h
      refine ⟨hm, by omega, by omega, fun j h1 h2 => ?_⟩
      rcases Nat.eq_or_lt_of_le h1 with h1 | h1
      · subst h1; simpa using hp
      · exact hmin j h1 h2

theorem findFirst_eq_none_of_false {p : Nat → Bool} (hp : ∀ j, p j = false) :
    ∀ s c, findFirst p s c = none := by
  intro s c
  induction c generalizing s with
  | zero => rfl
  | succ c ih => rw [findFirst]; simp [hp, ih]

/-! ## JS truthiness-based defaulting (`x || default`) -/

/-- JS `v || d` where `v : string | undefined`: the empty string and
`undefined` are falsy. -/
def jsOrStr (v : Option String) (d : String) : String :=
  match v with
  | some s => if s = "" then d else s
  | none => d

/-- JS `v || d` where `v : number | undefined`: `0` and `undefined` are
falsy. -/
def jsOrNat (v : Option Nat) (d : Nat) : Nat :=
  match v with
  | some n => if n = 0 then d else n
  | none => d

/-- JS `v || d` where `v : boolean | undefined`: `false` and `undefined`
are falsy, so the default is produced for both. -/
def jsOrBool (v : Option Bool) (d : Bool) : Bool :=
  match v with
  | some true => true
  | _ => d

/-- JS truthiness of a `string | undefined` value (the `if (!apiKey)`
check). -/
def jsTruthyStr (v : Option String) : Bool :=
  match v with
  | some s => s ≠ ""
  | none => false

/-! ## Decimal rendering of numbers (JS `${n}` for a nonnegative integer) -/

/-- Most-significant-first decimal digits of `n`; `fuel`-bounded
structural recursion (any `fuel > n` is exact). -/
def toDecimalAux : Nat → Nat → List Char
  | 0, _ => []
  | fuel + 1, n =>
    if n < 10 then [Nat.digitChar n]
    else toDecimalAux fuel (n / 10) ++ [Nat.digitChar (n % 10)]

/-- JS rendering of a nonnegative number into a string, as done by
template literals like `` `generated_${Date.now()}` ``. -/
def natToDecimal (n : Nat) : String :=
  String.mk (toDecimalAux (n + 1) n)

/-- Decimal value of a most-significant-first digit list (left inverse
used to prove `natToDecimal` injective). -/
def ofDecimal (l : List Char) : Nat :=
  l.foldl (fun a c => 10 * a + (c.toNat - 48)) 0

theorem ofDecimal_append_digit (l : List Char) (c : Char) :
    ofDecimal (l ++ [c]) = 10 * ofDecimal l + (c.toNat - 48) := by
  simp [ofDecimal, List.foldl_append]

theorem digitChar_val_of_lt {d : Nat} (h : d < 10) :
    (Nat.digitChar d).toNat - 48 = d := by
  revert h
  revert d
  decide

theorem ofDecimal_toDecimalAux : ∀ fuel n, n < fuel →
    ofDecimal (toDecimalAux fuel n) = n := by
  intro fuel
  induction fuel with
  | zero => intro n h; omega
  | succ fuel ih =>
    intro n h
    rw [toDecimalAux]
    by_cases hn : n < 10
    · simp only [if_pos hn]
      have : ofDecimal ([] ++ [Nat.digitChar n]) = n := by
        rw [ofDecimal_append_digit]
        simp [ofDecimal, digitChar_val_of_lt hn]
      simpa using this
    · simp only [if_neg hn]
      rw [ofDecimal_append_digit]
      have hdiv : n / 10 < fuel := by
        have h1 : n / 10 < n := Nat.div_lt_self (by omega) (by omega)
        omega
      rw [ih (n / 10) hdiv, digitChar_val_of_lt (Nat.mod_lt n (by omega))]
      omega

theorem natToDecimal_injective : Function.Injective natToDecimal := by
  intro m n h
  have hdata : toDecimalAux (m + 1) m = toDecimalAux (n + 1) n := by
    simpa [natToDecimal] using congrArg String.data h
  have := congrArg ofDecimal hdata
  rwa [ofDecimal_toDecimalAux (m + 1) m (by omega),
       ofDecimal_toDecimalAux (n + 1) n (by omega)] at this

/-! ## CodeBlockExtractor: `_extractCodeBlocks`

Embedding of the global regex loop

  while ((match = /```(\w+)?\s*\n([\s\S]*?)\n```/g.exec(response)) ...)

with JS backtracking semantics made explicit:
* a match starts at the leftmost position (from `lastIndex`) carrying
  `` ``` ``;
* `(\w+)?` takes the maximal word-character run (word and whitespace
  characters are disjoint, so no other choice can succeed);
* `\s*` is greedy: the newline consumed by the following `\n` is the
  LATEST feasible newline of the whitespace run after the tag;
* `([\s\S]*?)` is lazy: the closing `` \n``` `` is the NEAREST
  occurrence after the chosen opening newline;
* `lastIndex` advances to the end of the match. -/

/-- Three backticks at index `i`. -/
def fenceAt (cs : List Char) (i : Nat) : Bool :=
  charAt cs i = '`' && charAt cs (i + 1) = '`' && charAt cs (i + 2) = '`'

/-- A closing `` \n``` `` at index `m`. -/
def nlFenceAt (cs : List Char) (m : Nat) : Bool :=
  charAt cs m = '\n' && fenceAt cs (m + 1)

/-- Nearest closing `` \n``` `` at or after `lo` (lazy `([\s\S]*?)\n``` `). -/
def firstNlFence (cs : List Char) (lo : Nat) : Option Nat :=
  findFirst (fun m => nlFenceAt cs m) lo cs.length

/-- Greedy `\s*\n` search: try the newline at offset `t-1, …, 0` after
`j2` (latest first); a choice of opening newline `k` is feasible when
some closing `` \n``` `` exists after it, and the lazy content then ends
at the nearest one. Returns the opening newline `k` and the closing
position `m`. -/
def findKDesc (cs : List Char) (j2 : Nat) : Nat → Option (Nat × Nat)
  | 0 => none
  | t + 1 =>
    let k := j2 + t
    if charAt cs k = '\n' then
      match firstNlFence cs (k + 1) with
      | some m => some (k, m)
      | none => findKDesc cs j2 t
    else findKDesc cs j2 t

/-- Index just past the optional `(\w+)?` language tag of a fence
opened at `i` (the tag is the maximal word-character run after the
backticks). -/
def tagEnd (cs : List Char) (i : Nat) : Nat :=
  i + 3 + ((cs.drop (i + 3)).takeWhile jsWordChar).length

/-- Length of the maximal whitespace run following the language tag. -/
def wsLenAt (cs : List Char) (i : Nat) : Nat :=
  ((cs.drop (tagEnd cs i)).takeWhile jsWhitespace).length

/-- One attempt of the code-block regex at start index `i`. Returns
`(language, raw content, match end)` on success. -/
def matchAt (cs : List Char) (i : Nat) : Option (String × String × Nat) :=
  if fenceAt cs i then
    match findKDesc cs (tagEnd cs i) (wsLenAt cs i) with
    | some (k, m) =>
      some (String.mk ((cs.drop (i + 3)).takeWhile jsWordChar),
            String.mk ((cs.drop (k + 1)).take (m - (k + 1))), m + 4)
    | none => none
  else none

/-- Leftmost index `≥ pos` where the regex matches. -/
def findMatchIdx (cs : List Char) (pos : Nat) : Option Nat :=
  findFirst (fun i => (matchAt cs i).isSome) pos cs.length

/-- `regex.exec` from `lastIndex = pos`. -/
def findMatchFrom (cs : List Char) (pos : Nat) : Option (String × String × Nat) :=
  match findMatchIdx cs pos with
  | some i => matchAt cs i
  | none => none

/-- JS `String.prototype.trim` applied to the captured content. -/
def trimJs (s : String) : String :=
  String.mk (((s.data.dropWhile jsWhitespace).reverse.dropWhile jsWhitespace).reverse)

/-- A parsed fenced block: `{ language, code }` with
`language = match[1] || ''` and `code = match[2].trim()`. -/
structure CodeBlock where
  language : String
  code : String
deriving DecidableEq, Repr

/-- The `while` loop over `exec`, fuelled (each match consumes at least
eight characters, so `|cs| + 1` iterations always suffice). -/
def extractLoop (cs : List Char) : Nat → Nat → List CodeBlock
  | 0, _ => []
  | fuel + 1, pos =>
    match findMatchFrom cs pos with
    | some (lang, raw, e) => ⟨lang, trimJs raw⟩ :: extractLoop cs fuel e
    | none => []

/-- `_extractCodeBlocks(response)`. -/
def extractCodeBlocks (response : String) : List CodeBlock :=
  extractLoop response.data (response.data.length + 1) 0

/-! Inversion and emptiness lemmas for the extractor. -/

theorem matchAt_isSome_fence {cs : List Char} {i : Nat}
    (h : (matchAt cs i).isSome = true) : fenceAt cs i = true := by
  by_contra hf
  simp [matchAt, hf] at h

theorem fenceAt_mem {cs : List Char} {i : Nat} (h : fenceAt cs i = true) :
    '`' ∈ cs := by
  have h0 : charAt cs i = '`' := by
    simp [fenceAt] at h; exact h.1.1
  have : cs.getD i '\x00' = '`' := h0
  rcases Nat.lt_or_ge i cs.length with hi | hi
  · rw [List.getD_eq_getElem cs '\x00' hi] at this
    exact this ▸ List.getElem_mem hi
  · rw [List.getD_eq_default cs '\x00' hi] at this
    simp at this

theorem nlFenceAt_mem {cs : List Char} {m : Nat} (h : nlFenceAt cs m = true) :
    '\n' ∈ cs := by
  have h0 : charAt cs m = '\n' := by
    simp [nlFenceAt] at h; exact h.1
  have : cs.getD m '\x00' = '\n' := h0
  rcases Nat.lt_or_ge m cs.length with hm | hm
  · rw [List.getD_eq_getElem cs '\x00' hm] at this
    exact this ▸ List.getElem_mem hm
  · rw [List.getD_eq_default cs '\x00' hm] at this
    simp at this

theorem extractLoop_eq_nil {cs : List Char}
    (h : ∀ i, (matchAt cs i).isSome = false) (fuel pos : Nat) :
    extractLoop cs fuel pos = [] := by
  cases fuel with
  | zero => rfl
  | succ fuel =>
    rw [extractLoop]
    have : findMatchIdx cs pos = none :=
      findFirst_eq_none_of_false h pos cs.length
    simp [findMatchFrom, this]

/-- With no backtick in the input, no fence and hence no match exists. -/
theorem extractCodeBlocks_eq_nil_of_no_backtick {s : String}
    (h : '`' ∉ s.data) : extractCodeBlocks s = [] := by
  apply extractLoop_eq_nil
  intro i
  by_contra hm
  simp only [Bool.not_eq_false] at hm
  exact h (fenceAt_mem (matchAt_isSome_fence hm))

theorem findKDesc_eq_some {cs : List Char} {j2 t k m : Nat}
    (h : findKDesc cs j2 t = some (k, m)) :
    charAt cs k = '\n' ∧ firstNlFence cs (k + 1) = some m := by
  induction t with
  | zero => simp [findKDesc] at h
  | succ t ih =>
    rw [findKDesc] at h
    by_cases hk : charAt cs (j2 + t) = '\n'
    · simp only [hk, if_pos] at h
      rcases hf : firstNlFence cs (j2 + t + 1) with _ | m'
      · rw [hf] at h; exact ih h
      · rw [hf] at h
        simp at h
        obtain ⟨hk', hm'⟩ := h
        subst hk'; subst hm'
        exact ⟨hk, hf⟩
    · simp only [hk, if_neg, if_false] at h
      exact ih h

/-- A successful match ends at a closing `` \n``` `` that is the nearest
one after the content start: non-greedy pairing. -/
theorem matchAt_nearest_close {cs : List Char} {i : Nat}
    {lang raw : String} {e : Nat}
    (h : matchAt cs i = some (lang, raw, e)) :
    fenceAt cs i = true ∧
    ∃ k m, e = m + 4 ∧ nlFenceAt cs m = true ∧ k + 1 ≤ m ∧
      raw = String.mk ((cs.drop (k + 1)).take (m - (k + 1))) ∧
      ∀ j, k + 1 ≤ j → j < m → nlFenceAt cs j = false := by
  by_cases hf : fenceAt cs i = true
  · refine ⟨hf, ?_⟩
    rw [matchAt, if_pos hf] at h
    rcases hkd : findKDesc cs (tagEnd cs i) (wsLenAt cs i) with _ | ⟨k, m⟩
    · rw [hkd] at h; simp at h
    · rw [hkd] at h
      simp only [Option.some.injEq, Prod.mk.injEq] at h
      obtain ⟨hlang, hraw, he⟩ := h
      obtain ⟨hk, hfn⟩ := findKDesc_eq_some hkd
      obtain ⟨hm, hlo, _, hmin⟩ := findFirst_eq_some hfn
      exact ⟨k, m, he.symm, hm, hlo, hraw.symm, fun j h1 h2 => hmin j h1 h2⟩
  · rw [matchAt, if_neg hf] at h
    simp at h

/-- Every emitted block comes from an actual regex match, with its
language and trimmed content. -/
theorem extractCodeBlocks_head_inv {s : String} {b : CodeBlock}
    {bs : List CodeBlock} (h : extractCodeBlocks s = b :: bs) :
    ∃ i lang raw e, matchAt s.data i = some (lang, raw, e) ∧
      b = ⟨lang, trimJs raw⟩ := by
  rw [extractCodeBlocks, extractLoop] at h
  rcases hm : findMatchFrom s.data 0 with _ | ⟨lang, raw, e⟩
  · rw [hm] at h; simp at h
  · rw [hm] at h
    simp only [List.cons.injEq] at h
    rw [findMatchFrom] at hm
    rcases hi : findMatchIdx s.data 0 with _ | i
    · rw [hi] at hm; simp at hm
    · rw [hi] at hm
      exact ⟨i, lang, raw, e, hm, h.1.symm⟩

/-! ## FileNamer: `_getFileExtension` and the naming heuristics of `_createFile` -/

/-- The `extensionMap` object literal of `_getFileExtension`. -/
def extensionMap : List (String × String) :=
  [("html", "html"), ("javascript", "js"), ("typescript", "ts"),
   ("css", "css"), ("python", "py"), ("java", "java"), ("c", "c"),
   ("cpp", "cpp"), ("php", "php"), ("ruby", "rb"), ("go", "go"),
   ("rust", "rs"), ("swift", "swift"), ("kotlin", "kt"), ("sql", "sql"),
   ("json", "json"), ("xml", "xml"), ("markdown", "md"), ("yaml", "yml"),
   ("shell", "sh")]

/-- JS `String.prototype.toLowerCase` (ASCII range, which covers every
key of the map and every `\w+` language tag). -/
def lowerStr (s : String) : String :=
  String.mk (s.data.map Char.toLower)

/-- `_getFileExtension(language)`:
`extensionMap[language.toLowerCase()] || 'txt'`. -/
def getFileExtension (language : String) : String :=
  jsOrStr (extensionMap.lookup (lowerStr language)) "txt"

/-- `` `generated_${Date.now()}.${extension}` `` — the fallback file
name; `now` is the value `Date.now()` returned for this call. -/
def defaultFileName (now : Nat) (extension : String) : String :=
  "generated_" ++ natToDecimal now ++ "." ++ extension

/-- `titleMatch[1].replace(/[^a-zA-Z0-9]/g, '_').toLowerCase()`: each
non-alphanumeric character is replaced by one underscore, then the
result is lowercased. -/
def slugify (t : String) : String :=
  String.mk ((t.data.map fun c => if c.isAlphanum then c else '_').map Char.toLower)

/-- `"</title>"` (case-insensitively) at index `m`. -/
def closeTitleAt (cs : List Char) (m : Nat) : Bool :=
  charAt cs m = '<' && charAt cs (m + 1) = '/' &&
  (charAt cs (m + 2)).toLower = 't' && (charAt cs (m + 3)).toLower = 'i' &&
  (charAt cs (m + 4)).toLower = 't' && (charAt cs (m + 5)).toLower = 'l' &&
  (charAt cs (m + 6)).toLower = 'e' && charAt cs (m + 7) = '>'

/-- `"<title>"` (case-insensitively) at index `i`. -/
def openTitleAt (cs : List Char) (i : Nat) : Bool :=
  charAt cs i = '<' && (charAt cs (i + 1)).toLower = 't' &&
  (charAt cs (i + 2)).toLower = 'i' && (charAt cs (i + 3)).toLower = 't' &&
  (charAt cs (i + 4)).toLower = 'l' && (charAt cs (i + 5)).toLower = 'e' &&
  charAt cs (i + 6) = '>'

/-- Lazy `(.*?)<\/title>` search from position `m`: succeed at the first
closing tag, failing if a line terminator (not matched by `.`) or the
end of input is reached first. -/
def findCloseFrom (cs : List Char) : Nat → Nat → Option Nat
  | _, 0 => none
  | m, f + 1 =>
    if closeTitleAt cs m then some m
    else if m < cs.length && jsDotChar (charAt cs m) then
      findCloseFrom cs (m + 1) f
    else none

/-- Scan for the leftmost `<title>(.*?)<\/title>` match (the `/i` regex
of the html branch of `_createFile`), returning the captured group. -/
def findTitleFrom (cs : List Char) : Nat → Nat → Option String
  | _, 0 => none
  | i, f + 1 =>
    if openTitleAt cs i then
      match findCloseFrom cs (i + 7) (cs.length + 1) with
      | some m => some (String.mk ((cs.drop (i + 7)).take (m - (i + 7))))
      | none => findTitleFrom cs (i + 1) f
    else findTitleFrom cs (i + 1) f

/-- `content.match(/<title>(.*?)<\/title>/i)`, first capture group. -/
def findTitle (content : String) : Option String :=
  findTitleFrom content.data 0 (content.data.length + 1)

/-- `[a-zA-Z_]`, the first character of a Python identifier. -/
def pyIdentStart (c : Char) : Bool :=
  c.isAlpha || c = '_'

/-- `[a-zA-Z0-9_]`, a continuation character of a Python identifier. -/
def pyIdentChar (c : Char) : Bool :=
  c.isAlphanum || c = '_'

/-- One attempt of `/def\s+([a-zA-Z_][a-zA-Z0-9_]*)\s*\(/` at index `i`:
`def`, at least one whitespace, an identifier (maximal run), optional
whitespace, an opening parenthesis. All the character classes involved
are pairwise disjoint, so backtracking offers no other choice. -/
def pyDefMatchAt (cs : List Char) (i : Nat) : Option String :=
  if charAt cs i = 'd' && charAt cs (i + 1) = 'e' && charAt cs (i + 2) = 'f' then
    if jsWhitespace (charAt cs (i + 3)) then
      if pyIdentStart (charAt cs (i + 3 + ((cs.drop (i + 3)).takeWhile jsWhitespace).length)) then
        some (String.mk
          ((cs.drop (i + 3 + ((cs.drop (i + 3)).takeWhile jsWhitespace).length)).takeWhile pyIdentChar))
      else none
    else none
  else none

/-- Whether the whole pattern (including the trailing `\s*\(`) succeeds
at `i`; only then does the scan stop. -/
def pyDefFullMatchAt (cs : List Char) (i : Nat) : Bool :=
  match pyDefMatchAt cs i with
  | some name =>
    charAt cs (i + 3 + ((cs.drop (i + 3)).takeWhile jsWhitespace).length + name.length +
      ((cs.drop (i + 3 + ((cs.drop (i + 3)).takeWhile jsWhitespace).length + name.length)).takeWhile
        jsWhitespace).length) = '('
  | none => false

/-- `content.match(/def\s+([a-zA-Z_][a-zA-Z0-9_]*)\s*\(/)`, first
capture group of the leftmost match. -/
def findPyFunc (content : String) : Option String :=
  match findFirst (fun i => pyDefFullMatchAt content.data i) 0 content.data.length with
  | some i => pyDefMatchAt content.data i
  | none => none

/-- The file-name computation of `_createFile(content, extension)`:
default `generated_<Date.now()>.<extension>`, overridden by the html
title slug or the first Python function name when those heuristics
match with a truthy (non-empty) capture. -/
def nameForFile (now : Nat) (content : String) (extension : String) : String :=
  if extension = "html" then
    match findTitle content with
    | some t => if t = "" then defaultFileName now extension
                else slugify t ++ "." ++ extension
    | none => defaultFileName now extension
  else if extension = "py" then
    match findPyFunc content with
    | some f => if f = "" then defaultFileName now extension else f ++ ".py"
    | none => defaultFileName now extension
  else defaultFileName now extension

/-! ## ArtifactWriter: `_createFile` and `_processResponseForFiles` -/

/-- `_createFile(content, extension)`, with the host effects abstracted:
`workspace` is the first open workspace folder (or `none`), `now` the
`Date.now()` reading, and `writeOk` whether `fs.writeFile` (and the
subsequent editor-open calls) completed without throwing. Returns the
created file name, or `null` after a user-visible error report. -/
def createFile (workspace : Option String) (writeOk : Bool) (now : Nat)
    (content : String) (extension : String) : Option String :=
  match workspace with
  | none => none
  | some _ =>
    if writeOk then some (nameForFile now content extension) else none

/-- The `for (const block of codeBlocks)` loop of
`_processResponseForFiles`, threading the call index so that each
`_createFile` call can observe its own clock reading and I/O outcome. -/
def processBlocksFrom (workspace : Option String) (writeOk : Nat → Bool)
    (now : Nat → Nat) : Nat → List CodeBlock → List String
  | _, [] => []
  | i, b :: rest =>
    match createFile workspace (writeOk i) (now i) b.code (getFileExtension b.language) with
    | some name => name :: processBlocksFrom workspace writeOk now (i + 1) rest
    | none => processBlocksFrom workspace writeOk now (i + 1) rest

/-- `_processResponseForFiles(response)`: extract the blocks and attempt
each one, collecting the names of the successfully created files. -/
def processResponseForFiles (workspace : Option String) (writeOk : Nat → Bool)
    (now : Nat → Nat) (response : String) : List String :=
  processBlocksFrom workspace writeOk now 0 (extractCodeBlocks response)

/-! ## CompletionClient: `_callDeepSeekAPI`

`JSON.parse` and the shape checks on the parsed value are host
capabilities; the response body is therefore modelled by what the
handler observes of it: whether it parses, the `choices[i].message.content`
list when present, and the optional `error.message` field, together with
the raw text. -/

/-- A buffered HTTP response body as seen by the `res.on('end')`
handler. -/
inductive Body where
  /-- `JSON.parse(data)` throws; `raw` is the body text. -/
  | malformed (raw : String)
  /-- `JSON.parse(data)` succeeds; `choices` is the list of
  `message.content` values when the `choices` field is a present array,
  `errMsg` the `error.message` field when present. -/
  | json (raw : String) (choices : Option (List String)) (errMsg : Option String)
deriving DecidableEq

/-- Outcome of one HTTPS exchange: either a full buffered response or a
transport-level error (the `req.on('error')` path). -/
inductive Transport where
  | reply (statusCode : Nat) (body : Body)
  | networkError (message : String)
deriving DecidableEq

/-- The `res.on('end')` status dispatch of `_callDeepSeekAPI`: the value
passed to `resolve`, or the `Error` message passed to `reject`. -/
def handleApiResponse (statusCode : Nat) (body : Body) : Except String String :=
  if statusCode = 200 then
    match body with
    | .malformed _ => .error "Failed to parse API response"
    | .json _ choices _ =>
      match choices with
      | some (c :: _) => .ok c
      | _ => .error "No response from API"
  else if statusCode = 401 then
    .error "Authentication failed. Please check your API key in settings."
  else
    match body with
    | .malformed raw =>
      .error ("API error: " ++ natToDecimal statusCode ++ " - " ++ raw)
    | .json raw _ errMsg =>
      .error ("API error: " ++ natToDecimal statusCode ++ " - " ++ jsOrStr errMsg raw)

/-- `_callDeepSeekAPI(endpoint, …)` as a function of the transport
outcome. `endpointValid` is whether `new URL(endpoint)` succeeds; when
it does not, the promise rejects before any request is issued. The
second component counts the HTTPS requests issued by the call. -/
def callDeepSeekAPI (endpointValid : Bool) (endpoint : String)
    (transport : Transport) : Except String String × Nat :=
  if endpointValid then
    match transport with
    | .reply status body => (handleApiResponse status body, 1)
    | .networkError msg => (.error msg, 1)
  else
    (.error ("Invalid API endpoint: " ++ endpoint), 0)

/-! ## ConversationSession: `_handleMessage` of `src/extension.ts` -/

/-- A transcript entry: `{ role, content }`. -/
structure Message where
  role : String
  content : String
deriving DecidableEq, Repr

/-- Events the provider posts to the webview (both variants'
constructors included). -/
inductive UiEvent where
  | addMessage (text : String) (isUser : Bool)
  | setTypingIndicator (shown : Bool)
  | addTypingIndicator
  | removeTypingIndicator
deriving DecidableEq, Repr

/-- The `deepseek.*` configuration record, read fresh at the start of a
turn; `none` models an unset value (`config.get` returning
`undefined`). -/
structure Config where
  apiKey : Option String
  endpoint : Option String
  model : Option String
  maxResponseTokens : Option Nat
  allowEditing : Option Bool
deriving DecidableEq

/-- Mutable provider fields of `DeepseekChatViewProvider` relevant to a
turn: whether `_view` is attached, the `_isProcessing` flag
(`AwaitingResponse` when true) and `_conversationHistory`. -/
structure SessionState where
  viewAttached : Bool
  isProcessing : Bool
  history : List Message
  selectedModel : String
deriving DecidableEq

/-- Observable outcome of one `_handleMessage` call: the state on
return, the webview events posted, the number of HTTPS requests issued
and the file names created during the turn. -/
structure TurnResult where
  state : SessionState
  events : List UiEvent
  networkCalls : Nat
  filesWritten : List String
deriving DecidableEq

/-- The default endpoint URL. -/
def defaultEndpoint : String := "https://api.deepseek.com/v1/chat/completions"

/-- The chat text posted for a successful turn: prefixed with the count
and list of created files when at least one file was created. -/
def successText (createdFiles : List String) (response : String) : String :=
  if createdFiles.length > 0 then
    "✅ Created " ++ natToDecimal createdFiles.length ++ " file(s):\n" ++
      String.intercalate "\n" createdFiles ++ "\n\n" ++ response
  else response

/-- `_handleMessage(message, model)` of `src/extension.ts`. Host
effects are parameters: `cfg` the configuration read, `endpointValid`
and `transport` the networking outcome, `workspace`, `writeOk` and
`now` the file-system and clock oracles consumed by
`_processResponseForFiles`. -/
def handleMessage (st : SessionState) (message model : String) (cfg : Config)
    (endpointValid : Bool) (transport : Transport) (workspace : Option String)
    (writeOk : Nat → Bool) (now : Nat → Nat) : TurnResult :=
  if !st.viewAttached || st.isProcessing then
    { state := st, events := [], networkCalls := 0, filesWritten := [] }
  else
    -- _isProcessing = true; _selectedModel = model; push user message
    let hist1 := st.history ++ [⟨"user", message⟩]
    let endpoint := jsOrStr cfg.endpoint defaultEndpoint
    let allowEditing := jsOrBool cfg.allowEditing true
    if !jsTruthyStr cfg.apiKey then
      { state := { st with
                   history := hist1
                   isProcessing := false
                   selectedModel := model },
        events := [.addMessage "Error: Please set your DeepSeek API key in settings." false],
        networkCalls := 0, filesWritten := [] }
    else
      match callDeepSeekAPI endpointValid endpoint transport with
      | (.ok response, calls) =>
        let createdFiles :=
          if allowEditing then processResponseForFiles workspace writeOk now response
          else []
        { state := { st with
                     history := hist1 ++ [⟨"assistant", response⟩]
                     isProcessing := false
                     selectedModel := model },
          events := [.setTypingIndicator true, .setTypingIndicator false,
                     .addMessage (successText createdFiles response) false],
          networkCalls := calls, filesWritten := createdFiles }
      | (.error e, calls) =>
        { state := { st with
                     history := hist1
                     isProcessing := false
                     selectedModel := model },
          events := [.setTypingIndicator true, .setTypingIndicator false,
                     .addMessage ("Error: " ++ e) false],
          networkCalls := calls, filesWritten := [] }

/-! ## The earlier provider variant (the unnamed source file):
`_testApiKey` pre-flight probe, no `_isProcessing` flag, no file
materialization. -/

/-- Provider fields of the variant: `_view` and `_conversationHistory`
only. -/
structure SessionStateV0 where
  viewAttached : Bool
  history : List Message
deriving DecidableEq

/-- Observable outcome of one `_handleMessage` call of the variant. -/
structure TurnResultV0 where
  history : List Message
  events : List UiEvent
  networkCalls : Nat
deriving DecidableEq

/-- `_testApiKey(apiKey, endpoint)`: resolves `true` only when the probe
request comes back with status 200; any error (including an invalid
endpoint URL, in which case no request is issued) resolves `false`. -/
def testApiKey (endpointValid : Bool) (probeStatus200 : Bool) : Bool × Nat :=
  if endpointValid then (probeStatus200, 1) else (false, 0)

/-- `_handleMessage(message)` of the variant provider. -/
def handleMessageV0 (st : SessionStateV0) (message : String) (cfg : Config)
    (endpointValid : Bool) (probeStatus200 : Bool) (transport : Transport) :
    TurnResultV0 :=
  if !st.viewAttached then
    { history := st.history, events := [], networkCalls := 0 }
  else
    let hist1 := st.history ++ [⟨"user", message⟩]
    let endpoint := jsOrStr cfg.endpoint defaultEndpoint
    if !jsTruthyStr cfg.apiKey then
      { history := hist1,
        events := [.addMessage "Error: Please set your DeepSeek API key in settings." false],
        networkCalls := 0 }
    else
      match testApiKey endpointValid probeStatus200 with
      | (false, probeCalls) =>
        { history := hist1,
          events := [.addMessage "Error: Invalid API key. Please check your DeepSeek API key in settings." false],
          networkCalls := probeCalls }
      | (true, probeCalls) =>
        match callDeepSeekAPI endpointValid endpoint transport with
        | (.ok response, calls) =>
          { history := hist1 ++ [⟨"assistant", response⟩],
            events := [.addTypingIndicator, .removeTypingIndicator,
                       .addMessage response false],
            networkCalls := probeCalls + calls }
        | (.error e, calls) =>
          { history := hist1,
            events := [.addTypingIndicator, .removeTypingIndicator,
                       .addMessage ("Error: " ++ e) false],
            networkCalls := probeCalls + calls }

/-! ## Shared helper lemmas -/

/-- A match needs a closing `` \n``` ``, hence a newline in the input. -/
theorem matchAt_isSome_newline {cs : List Char} {i : Nat}
    (h : (matchAt cs i).isSome = true) : '\n' ∈ cs := by
  rcases hm : matchAt cs i with _ | ⟨lang, raw, e⟩
  · rw [hm] at h; simp at h
  · obtain ⟨_, k, m, _, hnl, _⟩ := matchAt_nearest_close hm
    exact nlFenceAt_mem hnl

/-- Inputs without a backtick contain no fence marker. -/
theorem fenceAt_false_of_no_backtick {cs : List Char} (h : '`' ∉ cs) :
    ∀ i, fenceAt cs i = false := by
  intro i
  by_contra hf
  simp only [Bool.not_eq_false] at hf
  exact h (fenceAt_mem hf)

/-- Beyond the end of the input there is no closing marker. -/
theorem nlFenceAt_false_of_ge_length {cs : List Char} {m : Nat}
    (h : cs.length ≤ m) : nlFenceAt cs m = false := by
  have : charAt cs m = '\x00' := List.getD_eq_default cs '\x00' h
  simp [nlFenceAt, this]

/-- Length accounting for a `filterMap`: successes plus failures cover
the whole list. -/
theorem length_filterMap_add_countP_none {α β : Type} (f : α → Option β) :
    ∀ l : List α,
      (l.filterMap f).length + l.countP (fun a => (f a).isNone) = l.length := by
  intro l
  induction l with
  | nil => rfl
  | cons a l ih =>
    rcases hf : f a with _ | b
    · simp [List.filterMap_cons, hf, List.countP_cons]
      omega
    · simp [List.filterMap_cons, hf, List.countP_cons]
      omega

/-! ## The claims -/

/-- **C9.** `_getFileExtension` is case-insensitive: any two tags with
the same lowercasing get the same extension; every tag whose
lowercasing is outside the fixed `extensionMap` — including the empty
tag of an untagged block — yields the generic `txt` extension. -/
theorem claim_C9_extension_lookup :
    (∀ s t : String, lowerStr s = lowerStr t →
      getFileExtension s = getFileExtension t) ∧
    (∀ s : String, extensionMap.lookup (lowerStr s) = none →
      getFileExtension s = "txt") ∧
    getFileExtension "" = "txt" := by
  refine ⟨fun s t h => ?_, fun s h => ?_, by decide⟩
  · simp [getFileExtension, h]
  · simp [getFileExtension, h, jsOrStr]

/-- **C9 witness.** `"Python"` and `"python"` agree; the unknown tag
`"brainfuck"` yields `txt`. -/
theorem claim_C9_witness :
    getFileExtension "Python" = getFileExtension "python" ∧
    getFileExtension "brainfuck" = "txt" :=
  ⟨claim_C9_extension_lookup.1 "Python" "python" (by decide),
   claim_C9_extension_lookup.2.1 "brainfuck" (by decide)⟩

/-- **C3 counterexample.** Two distinct calls (call 0 and call 1 of a
session) whose `Date.now()` readings fall in the same millisecond —
which `Date.now`'s millisecond resolution permits — produce the *same*
default file name, refuting the claimed uniqueness guarantee. -/
theorem claim_C3_counterexample :
    (0 : Nat) ≠ 1 ∧
    nameForFile ([1700000000000, 1700000000000].getD 0 0) "print(1)" "txt" =
      nameForFile ([1700000000000, 1700000000000].getD 1 0) "print(1)" "txt" :=
  ⟨by decide, rfl⟩

/-- **C3 (amended).** Default file names with a given extension are
distinct exactly when the `Date.now()` readings of the two calls are
distinct; uniqueness within a session therefore holds only for calls
observing different timestamps, not unconditionally. -/
theorem claim_C3_default_name_unique_iff :
    ∀ (t1 t2 : Nat) (ext : String),
      defaultFileName t1 ext = defaultFileName t2 ext ↔ t1 = t2 := by
  intro t1 t2 ext
  constructor
  · intro h
    apply natToDecimal_injective
    apply String.ext
    have hd := congrArg String.data h
    simp only [defaultFileName, String.data_append, List.append_assoc] at hd
    have hd2 := List.append_cancel_left hd
    exact List.append_cancel_right hd2
  · intro h; rw [h]

/-- **C3 witness.** Distinct timestamps at a fixed extension give
distinct names. -/
theorem claim_C3_witness :
    defaultFileName 1700000000000 "txt" ≠ defaultFileName 1700000000001 "txt" :=
  fun h =>
    absurd ((claim_C3_default_name_unique_iff 1700000000000 1700000000001 "txt").mp h)
      (by decide)

/-- **C4 counterexample.** The html naming heuristic does *not*
collapse runs of non-alphanumeric characters: the two consecutive
spaces in `<title>My  Page</title>` each become an underscore, so the
derived name is `my__page.html`, not the single-separator
`my_page.html` required by the claim. -/
theorem claim_C4_counterexample :
    nameForFile 0 "<title>My  Page</title>" "html" = "my__page.html" ∧
    nameForFile 0 "<title>My  Page</title>" "html" ≠ "my_page.html" := by
  constructor
  · decide
  · decide

/-- **C4 (amended).** For an html block whose content matches the
(single-line, case-insensitive) title pattern with non-empty title
text, the derived name lowercases the title and replaces each
non-alphanumeric character with its own underscore (character-for-
character, runs are not collapsed: the slug has exactly the title's
length); in particular `<title>My Page</title>` yields
`my_page.html`. -/
theorem claim_C4_title_slug :
    (∀ (now : Nat) (content t : String), findTitle content = some t → t ≠ "" →
      nameForFile now content "html" = slugify t ++ "." ++ "html") ∧
    (∀ t : String, (slugify t).data.length = t.data.length) ∧
    (∀ (t : String) (i : Nat), (slugify t).data[i]? =
      (t.data[i]?).map fun c => if c.isAlphanum then c.toLower else '_') ∧
    (∀ now : Nat, nameForFile now "<title>My Page</title>" "html" = "my_page.html") := by
  refine ⟨fun now content t h hne => ?_, fun t => ?_, fun t i => ?_, fun now => ?_⟩
  · simp [nameForFile, h, hne]
  · simp [slugify]
  · simp only [slugify, List.getElem?_map]
    cases h : t.data[i]? with
    | none => rfl
    | some c =>
      by_cases hc : c.isAlphanum <;> simp [Option.map, hc]
  · rfl

/-- **C4 witness.** The amended statement at the spec's own example. -/
theorem claim_C4_witness :
    nameForFile 99 "<title>My Page</title>" "html" = slugify "My Page" ++ "." ++ "html" :=
  claim_C4_title_slug.1 99 "<title>My Page</title>" "My Page" (by decide) (by decide)

/-- **C2.** Single-flight discipline: an incoming message while
`_isProcessing` is `true` (a turn in flight) is silently dropped — the
session state (history included) is unchanged, no UI event is posted,
no HTTPS request is issued and no file is written. -/
theorem claim_C2_single_flight :
    ∀ (st : SessionState) (message model : String) (cfg : Config)
      (endpointValid : Bool) (transport : Transport)
      (workspace : Option String) (writeOk : Nat → Bool) (now : Nat → Nat),
      st.isProcessing = true →
      handleMessage st message model cfg endpointValid transport workspace
          writeOk now =
        { state := st, events := [], networkCalls := 0, filesWritten := [] } := by
  intro st message model cfg endpointValid transport workspace writeOk now h
  simp [handleMessage, h]

/-- **C2 witness.** A concrete in-flight drop. -/
theorem claim_C2_witness :
    handleMessage ⟨true, true, [⟨"user", "first"⟩], "deepseek-chat"⟩ "second"
        "deepseek-chat" ⟨some "sk", none, none, none, none⟩ true
        (.reply 200 (.json "" (some ["hi"]) none)) none (fun _ => true)
        (fun _ => 0) =
      { state := ⟨true, true, [⟨"user", "first"⟩], "deepseek-chat"⟩,
        events := [], networkCalls := 0, filesWritten := [] } :=
  claim_C2_single_flight _ "second" "deepseek-chat" _ true _ none _ _ rfl

/-- **C8.** Code-block extraction: the empty input and any input
without a fence marker yield no blocks; an input with no closing
`` \n``` `` anywhere (so every fence is unterminated) yields no blocks
and no error (the extractor is a total function); every successful
match pairs the opening with the *nearest* following closing marker
(no closing marker occurs strictly inside the matched content); and
every emitted block arises from such a match, with `match[1] || ''` as
language and trimmed content. -/
theorem claim_C8_extraction :
    extractCodeBlocks "" = [] ∧
    (∀ s : String, (∀ i, fenceAt s.data i = false) → extractCodeBlocks s = []) ∧
    (∀ s : String, (∀ m, nlFenceAt s.data m = false) → extractCodeBlocks s = []) ∧
    (∀ (cs : List Char) (i : Nat) (lang raw : String) (e : Nat),
      matchAt cs i = some (lang, raw, e) →
      fenceAt cs i = true ∧
      ∃ k m, e = m + 4 ∧ nlFenceAt cs m = true ∧ k + 1 ≤ m ∧
        raw = String.mk ((cs.drop (k + 1)).take (m - (k + 1))) ∧
        ∀ j, k + 1 ≤ j → j < m → nlFenceAt cs j = false) ∧
    (∀ (s : String) (b : CodeBlock) (bs : List CodeBlock),
      extractCodeBlocks s = b :: bs →
      ∃ i lang raw e, matchAt s.data i = some (lang, raw, e) ∧
        b = ⟨lang, trimJs raw⟩) := by
  refine ⟨rfl, fun s h => ?_, fun s h => ?_,
    fun cs i lang raw e hm => matchAt_nearest_close hm,
    fun s b bs h => extractCodeBlocks_head_inv h⟩
  · apply extractLoop_eq_nil
    intro i
    by_contra hm
    simp only [Bool.not_eq_false] at hm
    have := matchAt_isSome_fence hm
    rw [h i] at this
    exact Bool.false_ne_true this
  · apply extractLoop_eq_nil
    intro i
    rcases hm : matchAt s.data i with _ | ⟨lang, raw, e⟩
    · rfl
    · obtain ⟨_, k, m, _, hnl, _⟩ := matchAt_nearest_close hm
      rw [h m] at hnl
      exact absurd hnl (Bool.false_ne_true)

/-- **C8 witness.** The parts of C8 at concrete inputs: a fence-free
input, an unterminated fence, and the match inside
`` ```js\nx\n``` ``. -/
theorem claim_C8_witness :
    extractCodeBlocks "hello" = [] ∧
    extractCodeBlocks "```js" = [] ∧
    (fenceAt "```js\nx\n```".data 0 = true ∧
      ∃ k m, 11 = m + 4 ∧ nlFenceAt "```js\nx\n```".data m = true ∧ k + 1 ≤ m ∧
        ("x" : String) = String.mk (("```js\nx\n```".data.drop (k + 1)).take (m - (k + 1))) ∧
        ∀ j, k + 1 ≤ j → j < m → nlFenceAt "```js\nx\n```".data j = false) ∧
    (∃ i lang raw e, matchAt "```js\nx\n```".data i = some (lang, raw, e) ∧
      (⟨"js", "x"⟩ : CodeBlock) = ⟨lang, trimJs raw⟩) := by
  refine ⟨?_, ?_, ?_, ?_⟩
  · exact claim_C8_extraction.2.1 "hello"
      (fenceAt_false_of_no_backtick (by decide))
  · apply claim_C8_extraction.2.2.1 "```js"
    intro m
    by_cases hm : m < 5
    · revert hm
      revert m
      decide
    · exact nlFenceAt_false_of_ge_length (by simpa using Nat.le_of_not_lt hm)
  · exact claim_C8_extraction.2.2.2.1 "```js\nx\n```".data 0 "js" "x" 11 (by decide)
  · exact claim_C8_extraction.2.2.2.2 "```js\nx\n```" ⟨"js", "x"⟩ [] (by decide)

/-- **C10.** An API key configured as the empty string behaves exactly
like an absent key: `if (!apiKey)` is a truthiness test, so the turn
posts the "Please set your DeepSeek API key" assistant-role error,
issues no HTTPS request, writes no file and returns with
`_isProcessing` back to `false` (Idle). The same holds in the earlier
provider variant. -/
theorem claim_C10_empty_key_is_absent_key :
    ∀ (st : SessionState) (message model : String) (cfg : Config)
      (endpointValid : Bool) (transport : Transport)
      (workspace : Option String) (writeOk : Nat → Bool) (now : Nat → Nat),
      st.viewAttached = true → st.isProcessing = false →
      (handleMessage st message model { cfg with apiKey := some "" }
          endpointValid transport workspace writeOk now =
        handleMessage st message model { cfg with apiKey := none }
          endpointValid transport workspace writeOk now) ∧
      ((handleMessage st message model { cfg with apiKey := some "" }
          endpointValid transport workspace writeOk now).events =
        [.addMessage "Error: Please set your DeepSeek API key in settings." false]) ∧
      ((handleMessage st message model { cfg with apiKey := some "" }
          endpointValid transport workspace writeOk now).networkCalls = 0) ∧
      ((handleMessage st message model { cfg with apiKey := some "" }
          endpointValid transport workspace writeOk now).state.isProcessing = false) ∧
      (∀ (hist : List Message) (probeStatus200 : Bool),
        handleMessageV0 ⟨true, hist⟩ message { cfg with apiKey := some "" }
            endpointValid probeStatus200 transport =
          handleMessageV0 ⟨true, hist⟩ message { cfg with apiKey := none }
            endpointValid probeStatus200 transport ∧
        (handleMessageV0 ⟨true, hist⟩ message { cfg with apiKey := some "" }
            endpointValid probeStatus200 transport).networkCalls = 0) := by
  intro st message model cfg endpointValid transport workspace writeOk now hv hp
  refine ⟨?_, ?_, ?_, ?_, fun hist probeStatus200 => ⟨?_, ?_⟩⟩ <;>
    simp [handleMessage, handleMessageV0, hv, hp, jsTruthyStr]

/-- **C10 witness.** The empty-key turn at a concrete state. -/
theorem claim_C10_witness :
    (handleMessage ⟨true, false, [], "deepseek-chat"⟩ "hi" "deepseek-chat"
        { apiKey := some "", endpoint := none, model := none,
          maxResponseTokens := none, allowEditing := none } true
        (.reply 200 (.json "" (some ["yo"]) none)) none (fun _ => true)
        (fun _ => 0)).events =
      [.addMessage "Error: Please set your DeepSeek API key in settings." false] :=
  (claim_C10_empty_key_is_absent_key ⟨true, false, [], "deepseek-chat"⟩ "hi"
    "deepseek-chat"
    { apiKey := none, endpoint := none, model := none,
      maxResponseTokens := none, allowEditing := none } true
    (.reply 200 (.json "" (some ["yo"]) none)) none (fun _ => true)
    (fun _ => 0) rfl rfl).2.1

/-- **C5.** Failed-turn history atomicity: whenever the completion call
rejects with any error `e` (the 401 authentication rejection included),
the turn turns the typing indicator off, posts an assistant-role
`Error: <e>` message, writes no file, and appends no assistant message:
the history ends with exactly the user's message appended. The variant
provider (which reaches the call only after a successful pre-flight
probe) behaves the same with its indicator events. -/
theorem claim_C5_failed_turn :
    ∀ (st : SessionState) (message model : String) (cfg : Config)
      (endpointValid : Bool) (transport : Transport)
      (workspace : Option String) (writeOk : Nat → Bool) (now : Nat → Nat)
      (e : String),
      st.viewAttached = true → st.isProcessing = false →
      jsTruthyStr cfg.apiKey = true →
      (callDeepSeekAPI endpointValid (jsOrStr cfg.endpoint defaultEndpoint)
          transport).1 = .error e →
      ((handleMessage st message model cfg endpointValid transport workspace
          writeOk now).state.history = st.history ++ [⟨"user", message⟩]) ∧
      ((handleMessage st message model cfg endpointValid transport workspace
          writeOk now).events =
        [.setTypingIndicator true, .setTypingIndicator false,
         .addMessage ("Error: " ++ e) false]) ∧
      ((handleMessage st message model cfg endpointValid transport workspace
          writeOk now).state.isProcessing = false) ∧
      ((handleMessage st message model cfg endpointValid transport workspace
          writeOk now).filesWritten = []) ∧
      (∀ hist : List Message, endpointValid = true →
        (handleMessageV0 ⟨true, hist⟩ message cfg endpointValid true
            transport).history = hist ++ [⟨"user", message⟩] ∧
        (handleMessageV0 ⟨true, hist⟩ message cfg endpointValid true
            transport).events =
          [.addTypingIndicator, .removeTypingIndicator,
           .addMessage ("Error: " ++ e) false]) := by
  intro st message model cfg endpointValid transport workspace writeOk now e
    hv hp hkey hcall
  rcases hc : callDeepSeekAPI endpointValid
      (jsOrStr cfg.endpoint defaultEndpoint) transport with ⟨res, calls⟩
  rw [hc] at hcall
  simp only at hcall
  subst hcall
  refine ⟨?_, ?_, ?_, ?_, fun hist hev => ?_⟩
  · simp [handleMessage, hv, hp, hkey, hc]
  · simp [handleMessage, hv, hp, hkey, hc]
  · simp [handleMessage, hv, hp, hkey, hc]
  · simp [handleMessage, hv, hp, hkey, hc]
  · subst hev
    constructor <;> simp [handleMessageV0, testApiKey, hkey, hc]

/-- **C5 witness.** A concrete 401 turn: the `AuthenticationFailed`
message is surfaced and the history keeps only the user message. -/
theorem claim_C5_witness :
    ((handleMessage ⟨true, false, [], "deepseek-chat"⟩ "hi" "deepseek-chat"
        ⟨some "sk", none, none, none, none⟩ true
        (.reply 401 (.json "" none none)) none (fun _ => true)
        (fun _ => 0)).state.history = [⟨"user", "hi"⟩]) ∧
    ((handleMessage ⟨true, false, [], "deepseek-chat"⟩ "hi" "deepseek-chat"
        ⟨some "sk", none, none, none, none⟩ true
        (.reply 401 (.json "" none none)) none (fun _ => true)
        (fun _ => 0)).events =
      [.setTypingIndicator true, .setTypingIndicator false,
       .addMessage "Error: Authentication failed. Please check your API key in settings." false]) := by
  have h := claim_C5_failed_turn ⟨true, false, [], "deepseek-chat"⟩ "hi"
    "deepseek-chat" ⟨some "sk", none, none, none, none⟩ true
    (.reply 401 (.json "" none none)) none (fun _ => true) (fun _ => 0)
    "Authentication failed. Please check your API key in settings."
    rfl rfl (by decide) rfl
  exact ⟨h.1, h.2.1⟩

/-- **C6.** The HTTP-200 contract of `_callDeepSeekAPI`: the call
resolves with `choices[0].message.content` exactly when the body parses
as JSON with a non-empty `choices` list; a malformed body rejects with
the parse error, a missing or empty `choices` list rejects with the
shape error (the two `InvalidResponse` conditions), and the client
issues at most one request per call — no retry. -/
theorem claim_C6_response_contract :
    (∀ (raw : String) (choices : Option (List String)) (errMsg : Option String)
        (c : String),
      handleApiResponse 200 (.json raw choices errMsg) = .ok c ↔
        ∃ rest, choices = some (c :: rest)) ∧
    (∀ raw : String,
      handleApiResponse 200 (.malformed raw) = .error "Failed to parse API response") ∧
    (∀ (raw : String) (errMsg : Option String),
      handleApiResponse 200 (.json raw none errMsg) = .error "No response from API") ∧
    (∀ (raw : String) (errMsg : Option String),
      handleApiResponse 200 (.json raw (some []) errMsg) = .error "No response from API") ∧
    (∀ (endpointValid : Bool) (endpoint : String) (transport : Transport),
      (callDeepSeekAPI endpointValid endpoint transport).2 ≤ 1) := by
  refine ⟨fun raw choices errMsg c => ⟨fun h => ?_, fun h => ?_⟩,
    fun raw => rfl, fun raw errMsg => rfl, fun raw errMsg => rfl,
    fun endpointValid endpoint transport => ?_⟩
  · rcases choices with _ | ⟨_ | ⟨c0, rest⟩⟩
    · simp [handleApiResponse] at h
    · simp [handleApiResponse] at h
    · simp [handleApiResponse] at h
      exact ⟨rest, by rw [h]⟩
  · obtain ⟨rest, hr⟩ := h
    subst hr
    rfl
  · rcases endpointValid with _ | _
    · simp [callDeepSeekAPI]
    · rcases transport with ⟨status, body⟩ | msg <;> simp [callDeepSeekAPI]

/-- **C6 witness.** The contract at concrete bodies. -/
theorem claim_C6_witness :
    handleApiResponse 200 (.json "{...}" (some ["Hello!", "alt"]) none) = .ok "Hello!" ∧
    handleApiResponse 200 (.malformed "not json") = .error "Failed to parse API response" ∧
    handleApiResponse 200 (.json "{}" none none) = .error "No response from API" ∧
    (callDeepSeekAPI true "https://api.deepseek.com/v1/chat/completions"
        (.reply 200 (.malformed "x"))).2 ≤ 1 :=
  ⟨(claim_C6_response_contract.1 "{...}" (some ["Hello!", "alt"]) none "Hello!").mpr
      ⟨["alt"], rfl⟩,
   claim_C6_response_contract.2.1 "not json",
   claim_C6_response_contract.2.2.1 "{}" none,
   claim_C6_response_contract.2.2.2.2 true
     "https://api.deepseek.com/v1/chat/completions" (.reply 200 (.malformed "x"))⟩

/-- **C7.** Partial-failure semantics of the write loop: iterating the
blocks in extraction order, the returned list is exactly the
`filterMap` of the per-block `_createFile` outcomes — the successes in
extraction order, failing blocks absent; every block is attempted (the
success and failure counts add up to the number of blocks, one reported
error per failure), and a concrete run with one writable and one
failing block returns the one-element success list. -/
theorem claim_C7_writeAll_partial_failure :
    (∀ (workspace : Option String) (writeOk : Nat → Bool) (now : Nat → Nat)
        (i : Nat) (blocks : List CodeBlock),
      processBlocksFrom workspace writeOk now i blocks =
        (List.enumFrom i blocks).filterMap fun p =>
          createFile workspace (writeOk p.1) (now p.1) p.2.code
            (getFileExtension p.2.language)) ∧
    (∀ (workspace : Option String) (writeOk : Nat → Bool) (now : Nat → Nat)
        (i : Nat) (blocks : List CodeBlock),
      (processBlocksFrom workspace writeOk now i blocks).length +
        (List.enumFrom i blocks).countP (fun p =>
          (createFile workspace (writeOk p.1) (now p.1) p.2.code
            (getFileExtension p.2.language)).isNone) = blocks.length) ∧
    (processResponseForFiles (some "/ws") (fun i => i == 0) (fun _ => 7)
        "```python\ndef foo():\n    pass\n```\n```js\nlet x = 1\n```" =
      ["foo.py"] ∧
     (List.enumFrom 0 (extractCodeBlocks
        "```python\ndef foo():\n    pass\n```\n```js\nlet x = 1\n```")).countP
        (fun p => (createFile (some "/ws") (p.1 == 0) 7 p.2.code
          (getFileExtension p.2.language)).isNone) = 1) := by
  have key : ∀ (workspace : Option String) (writeOk : Nat → Bool)
      (now : Nat → Nat) (i : Nat) (blocks : List CodeBlock),
      processBlocksFrom workspace writeOk now i blocks =
        (List.enumFrom i blocks).filterMap fun p =>
          createFile workspace (writeOk p.1) (now p.1) p.2.code
            (getFileExtension p.2.language) := by
    intro workspace writeOk now i blocks
    induction blocks generalizing i with
    | nil => rfl
    | cons b rest ih =>
      rw [processBlocksFrom, List.enumFrom, List.filterMap_cons]
      rcases hc : createFile workspace (writeOk i) (now i) b.code
          (getFileExtension b.language) with _ | name
      · exact ih (i + 1)
      · rw [ih (i + 1)]
  refine ⟨key, fun workspace writeOk now i blocks => ?_, by decide, by decide⟩
  rw [key]
  have := length_filterMap_add_countP_none
    (fun p : Nat × CodeBlock =>
      createFile workspace (writeOk p.1) (now p.1) p.2.code
        (getFileExtension p.2.language)) (List.enumFrom i blocks)
  rw [this]
  exact (List.enumFrom_length).symm ▸ rfl

/-- **C7 witness.** The loop characterization at a concrete block
list. -/
theorem claim_C7_witness :
    processBlocksFrom (some "/w") (fun _ => true) (fun _ => 3) 0
        [⟨"python", "def g():"⟩] =
      (List.enumFrom 0 [(⟨"python", "def g():"⟩ : CodeBlock)]).filterMap
        fun p => createFile (some "/w") true 3 p.2.code
          (getFileExtension p.2.language) :=
  claim_C7_writeAll_partial_failure.1 (some "/w") (fun _ => true)
    (fun _ => 3) 0 [⟨"python", "def g():"⟩]

/-- **C1 (the bug).** File materialization is *not* conditional on
configuration: `config.get<boolean>('allowEditing') || true` evaluates
to `true` even when the setting is `false` (`false || true === true`),
so a successful turn with `allowEditing` configured `false` still
writes the extracted code blocks to the workspace — here one file,
against the documented contract that no file is written. -/
theorem claim_C1_files_written_despite_disabled :
    jsOrBool (some false) true = true ∧
    (handleMessage ⟨true, false, [], "deepseek-chat"⟩ "make a page"
        "deepseek-chat" ⟨some "sk-key", none, none, none, some false⟩ true
        (.reply 200 (.json "{...}"
          (some ["Here you go:\n```python\ndef foo():\n    pass\n```"]) none))
        (some "/workspace") (fun _ => true) (fun _ => 0)).filesWritten =
      ["foo.py"] := by
  exact ⟨rfl, by decide⟩

end DeepseekChat
